import Mathlib

/-!
Shallow embedding of the recommendation and cuisine-matching engine of the
ammas-backend repository (app/routes/ai.py, app/utils/distance.py,
app/models/user.py), together with theorems settling the frozen claims
about its specification.

Python strings are modelled as lists of characters; Python floats are
modelled as exact rationals; the SQLAlchemy tables are modelled as lists of
records carried in an environment value; the math-library trigonometric
primitives are modelled as an abstract family of rational functions so that
the haversine computation stays executable.
-/

namespace AmmasBackend

/-- Characters of a Python string. -/
abbrev Str := List Char

/-- Turn a Lean string literal into the character-list model. -/
def str (s : String) : Str := s.data

/-- Whitespace characters recognised by Python str.strip and str.split. -/
def pySpace (c : Char) : Bool :=
  c == ' ' || c == '\t' || c == '\n' || c == '\r' || c == '\x0b' || c == '\x0c'

/-- Python str.lower, character by character. -/
def lowerStr (s : Str) : Str := s.map Char.toLower

/-- Python str.strip with no argument: drop leading and trailing whitespace. -/
def stripStr (s : Str) : Str :=
  ((s.dropWhile pySpace).reverse.dropWhile pySpace).reverse

/-- Python substring test, needle in hay. -/
def pyIn (needle : Str) : Str → Bool
  | [] => needle == []
  | c :: rest => needle.isPrefixOf (c :: rest) || pyIn needle rest

/-- Helper for pySplit, accumulating the current word in reverse. -/
def pySplitGo : Str → Str → List Str
  | [], acc => if acc == [] then [] else [acc.reverse]
  | c :: rest, acc =>
    if pySpace c then
      if acc == [] then pySplitGo rest [] else acc.reverse :: pySplitGo rest []
    else pySplitGo rest (c :: acc)

/-- Python str.split with no argument: split on whitespace runs, no empty parts. -/
def pySplit (s : Str) : List Str := pySplitGo s []

/-- Python set(...) built from a list; only cardinality and membership of the
result are ever used, so duplicates are removed. -/
def pySet (l : List Str) : List Str := l.dedup

/-- Source normalize_cuisine_name (ai.py lines 107-113): lowercase then strip.
The None case of the source maps to the empty string. -/
def normalize_cuisine_name (s : Str) : Str := stripStr (lowerStr s)

/-- The fixed cuisine group table of cuisine_matches (ai.py lines 137-146),
in source order. -/
def cuisineGroups : List (Str × List Str) :=
  [ (str "south indian",
      [str "south indian", str "south", str "tamil", str "telugu", str "kannada",
       str "malayalam", str "kerala", str "kerala cuisine", str "andhra",
       str "andhra pradesh", str "dosa", str "idli", str "sambar", str "rasam"]),
    (str "north indian",
      [str "north indian", str "north", str "punjabi", str "delhi", str "rajasthani",
       str "gujarati", str "uttar pradesh", str "haryana", str "himachal"]),
    (str "bengali", [str "bengali", str "bengal", str "kolkata", str "west bengal"]),
    (str "gujarati", [str "gujarati", str "gujarat"]),
    (str "maharashtrian",
      [str "maharashtrian", str "maharashtra", str "marathi", str "pune", str "mumbai"]),
    (str "punjabi", [str "punjabi", str "punjab"]),
    (str "rajasthani", [str "rajasthani", str "rajasthan"]),
    (str "kerala", [str "kerala", str "kerala cuisine", str "malayalam", str "kerala food"]) ]

/-- First group of the table one of whose variant substrings occurs in the
normalized cuisine name (ai.py lines 148-160). -/
def findGroup (norm : Str) : Option Str :=
  (cuisineGroups.find? (fun g => g.2.any (fun v => pyIn v norm))).map Prod.fst

/-- Noise words removed before the word-overlap fallback (ai.py line 189). -/
def noiseWords : List Str :=
  [str "indian", str "cuisine", str "food", str "style", str "cooking"]

/-- The north and south conflict test of cuisine_matches (ai.py lines 128-133),
on the two normalized strings. -/
def northSouthConflict (un vn : Str) : Bool :=
  (pyIn (str "north") un && pyIn (str "south") vn) ||
  (pyIn (str "south") un && pyIn (str "north") vn)

/-- The rules of cuisine_matches after the leading conflict short-circuit
(ai.py lines 136-201): group membership, exact match, containment in either
direction, then word overlap, each later containment or overlap rule
re-checking the conflict flags exactly as the source does. -/
def cuisineRest (un vn : Str) : Bool :=
  let ug := findGroup un
  let vg := findGroup vn
  if ug.isSome && vg.isSome && ug == vg then true
  else if un == vn then true
  else if pyIn un vn then (if northSouthConflict un vn then false else true)
  else if pyIn vn un then (if northSouthConflict un vn then false else true)
  else
    let uw := (pySet (pySplit un)).filter (fun w => !(noiseWords.contains w))
    let vw := (pySet (pySplit vn)).filter (fun w => !(noiseWords.contains w))
    let cw := uw.filter (fun w => vw.contains w)
    if 0 < cw.length && min uw.length vw.length ≤ 2 * cw.length then
      (if northSouthConflict un vn then false else true)
    else false

/-- Source cuisine_matches (ai.py lines 115-201). Empty inputs (falsy Python
strings) never match; the conflict check dominates every later rule. The
word-overlap threshold, written with the float 0.5 in the source, is the exact
condition two times the overlap size being at least the smaller set size. -/
def cuisine_matches (user_cuisine producer_cuisine : Str) : Bool :=
  if user_cuisine == [] || producer_cuisine == [] then false
  else
    let un := normalize_cuisine_name user_cuisine
    let vn := normalize_cuisine_name producer_cuisine
    if northSouthConflict un vn then false
    else cuisineRest un vn

/-- Interpretation of the math-library primitives used by the haversine
computation. The source calls them on IEEE floats; the model treats them as an
arbitrary family of rational functions, so every theorem below about the
distance code holds for any interpretation of the trigonometry. -/
structure TrigOps where
  radians : ℚ → ℚ
  sin : ℚ → ℚ
  cos : ℚ → ℚ
  asin : ℚ → ℚ
  sqrt : ℚ → ℚ

/-- Sample interpretation used to instantiate closed statements. -/
def idTrig : TrigOps := ⟨id, id, id, id, id⟩

/-- Python truthiness of an optional numeric argument: None and 0.0 are falsy. -/
def truthyNum : Option ℚ → Bool
  | none => false
  | some x => !(x == 0)

/-- Python truthiness of an optional string column: None and the empty string
are falsy. -/
def truthyStr : Option Str → Bool
  | none => false
  | some s => !(s == [])

/-- Source calculate_distance_haversine (distance.py lines 4-18). The guard is
Python not all([lat1, lon1, lat2, lon2]), so a missing value and the float 0.0
are rejected alike. -/
def calculate_distance_haversine (T : TrigOps)
    (lat1 lon1 lat2 lon2 : Option ℚ) : Option ℚ :=
  if !(truthyNum lat1 && truthyNum lon1 && truthyNum lat2 && truthyNum lon2) then
    none
  else
    let a1 := lat1.getD 0
    let b1 := lon1.getD 0
    let a2 := lat2.getD 0
    let b2 := lon2.getD 0
    let dlat := T.radians (a2 - a1)
    let dlon := T.radians (b2 - b1)
    let a := T.sin (dlat / 2) ^ 2 +
      T.cos (T.radians a1) * T.cos (T.radians a2) * T.sin (dlon / 2) ^ 2
    let c := 2 * T.asin (T.sqrt a)
    some (6371 * c)

/-- Source calculate_distance (distance.py lines 20-43) as invoked by the
recommendation code: use_google defaults to False, so it is the haversine
fallback. -/
def calculate_distance (T : TrigOps) (lat1 lon1 lat2 lon2 : Option ℚ) : Option ℚ :=
  calculate_distance_haversine T lat1 lon1 lat2 lon2

/-- The distance formula as the specification states it in section 4.1:
a = sin^2(dlat/2) + cos(lat1) cos(lat2) sin^2(dlon/2) and
distance = 2 R asin(sqrt a) with R = 6371. -/
def specHaversineFormula (T : TrigOps) (lat1 lon1 lat2 lon2 : ℚ) : ℚ :=
  let dlat := T.radians (lat2 - lat1)
  let dlon := T.radians (lon2 - lon1)
  let a := T.sin (dlat / 2) ^ 2 +
    T.cos (T.radians lat1) * T.cos (T.radians lat2) * T.sin (dlon / 2) ^ 2
  2 * 6371 * T.asin (T.sqrt a)

/-- One row of the producers table, restricted to the columns the
recommendation code reads. -/
structure Producer where
  id : ℕ
  status : Str
  is_active : Bool
  latitude : Option ℚ
  longitude : Option ℚ
  cuisine_specialty : Option Str
deriving DecidableEq

/-- One row of the dishes table, restricted to the columns the recommendation
code reads. The allergens field carries the parsed output of
Dish.get_allergens_list. The nullable rating and count columns default to zero
in the schema and the scorer reads them through the Python expression
value or 0, so they are modelled as already-defaulted numbers. -/
structure Dish where
  id : ℕ
  producer_id : ℕ
  price : ℚ
  currency : Option Str
  category : Option Str
  dietary_type : Option Str
  spice_level : Option Str
  allergens : List Str
  ingredients : Option Str
  description : Option Str
  is_available : Bool
  average_rating : ℚ
  view_count : ℕ
  order_count : ℕ
deriving DecidableEq

/-- One paid-or-not order row with the dish ids of its items. -/
structure OrderRow where
  customer_id : ℕ
  producer_id : ℕ
  payment_status : Str
  item_dish_ids : List ℕ
deriving DecidableEq

/-- One review row. -/
structure ReviewRow where
  user_id : ℕ
  dish_id : ℕ
  rating : ℚ
  is_visible : Bool
deriving DecidableEq

/-- The user profile as the engine consumes it: the scalar preference columns
plus the parsed list-valued preferences, which the engine obtains through the
User getter methods. -/
structure User where
  id : ℕ
  dietary_preferences : Option Str
  spice_level : Option Str
  budget_preference : Option Str
  preferred_cuisines : List Str
  dietary_restrictions : List Str
  allergens : List Str
  meal_preferences : List Str
deriving DecidableEq

/-- Read-only snapshot of the database tables consulted during one call. -/
structure Env where
  dishes : List Dish
  producers : List Producer
  orders : List OrderRow
  reviews : List ReviewRow
deriving DecidableEq

/-- Outcome of json.loads on the stored preferred_cuisines text: a JSON array
(whose elements are modelled by their str(...) rendering, an element being
falsy exactly when that rendering is empty), some other successfully parsed
value, or a parse failure. -/
inductive ParseOutcome where
  | asList (elems : List Str)
  | asOther
  | failure
deriving DecidableEq

/-- Helper for splitComma, accumulating the current piece in reverse. -/
def splitCommaGo : Str → Str → List Str
  | [], acc => [acc.reverse]
  | c :: rest, acc =>
    if c == ',' then acc.reverse :: splitCommaGo rest []
    else splitCommaGo rest (c :: acc)

/-- Python str.split on a comma: every comma separates, empty pieces kept. -/
def splitComma (s : Str) : List Str := splitCommaGo s []

/-- Source User.get_preferred_cuisines_list (user.py lines 51-66), with the
json.loads outcome supplied as a parameter. A falsy column yields the empty
list; a parsed JSON array keeps the stripped truthy elements; any other parsed
value falls back to the stripped whole string; a parse failure falls back to
comma splitting when a comma is present, else to the stripped whole string. -/
def get_preferred_cuisines_list : Option Str → ParseOutcome → List Str
  | none, _ => []
  | some s, .asList elems =>
    if s == [] then []
    else (elems.filter (fun c => !(c == []) && !(stripStr c == []))).map stripStr
  | some s, .asOther =>
    if s == [] then []
    else if stripStr s == [] then [] else [stripStr s]
  | some s, .failure =>
    if s == [] then []
    else if s.contains ',' then
      ((splitComma s).filter (fun c => !(stripStr c == []))).map stripStr
    else if stripStr s == [] then [] else [stripStr s]

/-- Paid orders of the user (ai.py line 229). -/
def paidOrders (env : Env) (uid : ℕ) : List OrderRow :=
  env.orders.filter (fun o => o.customer_id == uid && o.payment_status == str "paid")

/-- Dish ids the user has ordered before (ai.py lines 230-235); only
membership in the set is ever used. -/
def ordered_dish_ids (env : Env) (uid : ℕ) : List ℕ :=
  (paidOrders env uid).flatMap (fun o => o.item_dish_ids)

/-- Producer ids the user has ordered from before (ai.py lines 230-235); the
loop adds the producer once per item, so an order with no items contributes
nothing. -/
def ordered_producer_ids (env : Env) (uid : ℕ) : List ℕ :=
  ((paidOrders env uid).filter (fun o => !(o.item_dish_ids == []))).map
    (fun o => o.producer_id)

/-- Dish ids of visible reviews the user rated at least four (ai.py 238-239). -/
def liked_dish_ids (env : Env) (uid : ℕ) : List ℕ :=
  (env.reviews.filter
      (fun r => r.user_id == uid && r.is_visible && decide ((4 : ℚ) ≤ r.rating))).map
    (fun r => r.dish_id)

/-- Primary-key lookup Producer.query.get over the whole producers table
(ai.py lines 427 and 586), with no status filter. -/
def producerById (env : Env) (pid : ℕ) : Option Producer :=
  env.producers.find? (fun p => p.id == pid)

/-- Whether any user-preferred cuisine matches the given specialty, as tested
by the scoring loop (ai.py lines 431-436), which passes the preference through
unchanged. -/
def matchesAnyPref (prefs : List Str) (spec : Str) : Bool :=
  prefs.any (fun c => cuisine_matches c spec)

/-- The dish_cuisine_matches flag of the scoring loop (ai.py lines 422-436):
set only when the user has cuisine preferences, the producer row exists, its
specialty is truthy and some preference matches it. -/
def dish_cuisine_matches (env : Env) (prefs : List Str) (d : Dish) : Bool :=
  !(prefs == []) &&
    (match producerById env d.producer_id with
     | some p =>
       match p.cuisine_specialty with
       | some spec => !(spec == []) && matchesAnyPref prefs spec
       | none => false
     | none => false)

/-- Cuisine contribution of the scorer (ai.py lines 426-446): +40 on a match,
-20 on a miss, nothing when the user has no preferences or the producer row or
its specialty is missing. The additional +5 per extra match of the source is
dead code because the match loop breaks at the first matching preference, so
match_count never exceeds one. -/
def cuisineComponent (env : Env) (prefs : List Str) (d : Dish) : ℚ :=
  if prefs == [] then 0
  else
    match producerById env d.producer_id with
    | some p =>
      match p.cuisine_specialty with
      | some spec =>
        if spec == [] then 0
        else if matchesAnyPref prefs spec then 40 else -20
      | none => 0
    | none => 0

/-- Rating contribution (ai.py line 449). -/
def ratingComponent (d : Dish) : ℚ := d.average_rating * 10

/-- Popularity contribution (ai.py lines 452-453). -/
def popularityComponent (d : Dish) : ℚ :=
  min ((d.order_count : ℚ) * 0.1) 20 + min ((d.view_count : ℚ) * 0.01) 10

/-- Past-behavior contribution (ai.py lines 456-463). -/
def behaviorComponent (env : Env) (uid : ℕ) (d : Dish) : ℚ :=
  (if (ordered_producer_ids env uid).contains d.producer_id then 25 else 0) +
  (if (liked_dish_ids env uid).contains d.id then 50 else 0) +
  (if !((ordered_dish_ids env uid).contains d.id) then 5 else 0)

/-- Dietary-alignment contribution (ai.py lines 467-480). -/
def dietaryComponent (user : User) (cuisineApplied matched : Bool) (d : Dish) : ℚ :=
  if !(truthyStr user.dietary_preferences) then 0
  else
    let u := user.dietary_preferences.getD []
    match d.dietary_type with
    | some dt =>
      if dt == [] then 0
      else if lowerStr dt == lowerStr u then
        (if cuisineApplied || matched then 20 else 15)
      else if matched then -5
      else if cuisineApplied then -10
      else -15
    | none => 0

/-- Spice-alignment contribution (ai.py lines 483-494). -/
def spiceComponent (user : User) (cuisineApplied matched : Bool) (d : Dish) : ℚ :=
  if !(truthyStr user.spice_level) then 0
  else
    let u := user.spice_level.getD []
    match d.spice_level with
    | some sl =>
      if sl == [] then 0
      else if lowerStr sl == lowerStr u then
        (if cuisineApplied || matched then 15 else 12)
      else if matched then -2
      else -5
    | none => 0

/-- Meal-time contribution (ai.py lines 497-508). -/
def mealComponent (user : User) (d : Dish) : ℚ :=
  if user.meal_preferences == [] || !(truthyStr d.category) then 0
  else
    let catL := lowerStr (d.category.getD [])
    if user.meal_preferences.any
        (fun mp => pyIn (lowerStr mp) catL || pyIn catL (lowerStr mp)) then 15
    else -5

/-- Budget contribution (ai.py lines 512-528), with the price first normalized
to the reference currency exactly as the source does. -/
def budgetComponent (user : User) (d : Dish) : ℚ :=
  let gbp :=
    if d.currency == some (str "INR") || (d.currency == none && decide (50 < d.price))
    then d.price / 100 else d.price
  if !(truthyStr user.budget_preference) then 0
  else
    let bp := lowerStr (user.budget_preference.getD [])
    if bp == str "low" && decide (gbp ≤ 10) then 25
    else if bp == str "medium" && decide (10 < gbp) && decide (gbp ≤ 20) then 25
    else if bp == str "high" && decide (20 < gbp) then 25
    else if bp == str "low" && decide (20 < gbp) then -40
    else if bp == str "high" && decide (gbp < 10) then -15
    else 0

/-- Dairy keywords of the lactose-free scan (ai.py line 538). -/
def dairyKeywords : List Str :=
  [str "dairy", str "milk", str "cream", str "butter", str "cheese",
   str "yogurt", str "curd"]

/-- Terms avoided by the jain scan (ai.py line 543). -/
def jainAvoid : List Str :=
  [str "onion", str "garlic", str "root", str "potato", str "ginger"]

/-- Dietary-restriction penalties (ai.py lines 531-545), scanning the lowered
concatenation of description, a space, and ingredients. -/
def restrictionComponent (user : User) (d : Dish) : ℚ :=
  if user.dietary_restrictions == [] then 0
  else
    let desc := lowerStr ((d.description.getD []) ++ [' '] ++ (d.ingredients.getD []))
    (if user.dietary_restrictions.contains (str "gluten-free") &&
        pyIn (str "gluten") desc then -50 else 0) +
    (if user.dietary_restrictions.contains (str "lactose-free") &&
        dairyKeywords.any (fun k => pyIn k desc) then -50 else 0) +
    (if user.dietary_restrictions.contains (str "jain") &&
        jainAvoid.any (fun k => pyIn k desc) then -50 else 0)

/-- Case-insensitive two-way substring test between a user-avoided allergen
and a dish-declared allergen (ai.py line 554). -/
def allergenMatch (a da : Str) : Bool :=
  pyIn (lowerStr a) (lowerStr da) || pyIn (lowerStr da) (lowerStr a)

/-- Whether the avoided-allergen list overlaps the declared-allergen list in
the sense of allergenMatch. -/
def allergenOverlap (userAl dishAl : List Str) : Bool :=
  userAl.any (fun a => dishAl.any (fun da => allergenMatch a da))

/-- Allergen penalty (ai.py lines 547-556): -60 once per avoided allergen that
matches some declared allergen, the inner loop breaking after the first hit. -/
def allergenComponent (user : User) (d : Dish) : ℚ :=
  if user.allergens == [] || d.allergens == [] then 0
  else
    -60 * ((user.allergens.filter
        (fun a => d.allergens.any (fun da => allergenMatch a da))).length : ℚ)

/-- All score contributions before the allergen penalty, in source order
(ai.py lines 421-545). -/
def scoreBase (env : Env) (user : User) (cuisineApplied : Bool) (d : Dish) : ℚ :=
  cuisineComponent env user.preferred_cuisines d +
  ratingComponent d +
  popularityComponent d +
  behaviorComponent env user.id d +
  dietaryComponent user cuisineApplied
    (dish_cuisine_matches env user.preferred_cuisines d) d +
  spiceComponent user cuisineApplied
    (dish_cuisine_matches env user.preferred_cuisines d) d +
  mealComponent user d +
  budgetComponent user d +
  restrictionComponent user d

/-- The computed score of one dish in the scoring loop (ai.py lines 420-556),
before the cuisine-match floor is applied. -/
def scoreDish (env : Env) (user : User) (cuisineApplied : Bool) (d : Dish) : ℚ :=
  scoreBase env user cuisineApplied d + allergenComponent user d

/-- Whether the scoring loop appends the dish to scored_dishes
(ai.py lines 558-570): cuisine-matched dishes always, others only above -30. -/
def includeDish (env : Env) (user : User) (cuisineApplied : Bool) (d : Dish) : Bool :=
  dish_cuisine_matches env user.preferred_cuisines d ||
    decide ((-30 : ℚ) < scoreDish env user cuisineApplied d)

/-- The score stored with an included dish: floored at 20 for cuisine-matched
dishes (ai.py lines 563-564), the raw computed score otherwise. -/
def finalScore (env : Env) (user : User) (cuisineApplied : Bool) (d : Dish) : ℚ :=
  if dish_cuisine_matches env user.preferred_cuisines d then
    (if scoreDish env user cuisineApplied d < 20 then 20
     else scoreDish env user cuisineApplied d)
  else scoreDish env user cuisineApplied d

/-- The entry the scoring loop appends for one dish, if any
(ai.py lines 558-570). -/
def scoredEntry (env : Env) (user : User) (cuisineApplied : Bool) (d : Dish) :
    Option (Dish × ℚ) :=
  if dish_cuisine_matches env user.preferred_cuisines d then
    some (d, if scoreDish env user cuisineApplied d < 20 then 20
      else scoreDish env user cuisineApplied d)
  else if decide ((-30 : ℚ) < scoreDish env user cuisineApplied d) then
    some (d, scoreDish env user cuisineApplied d)
  else none

/-- The scored_dishes list built by the scoring loop over the candidate pool. -/
def scored_dishes (env : Env) (user : User) (cuisineApplied : Bool)
    (pool : List Dish) : List (Dish × ℚ) :=
  pool.filterMap (scoredEntry env user cuisineApplied)

/-- Available dishes, the base of every catalog query (ai.py line 226). -/
def available_dishes (env : Env) : List Dish :=
  env.dishes.filter (fun d => d.is_available)

/-- Approved, active producers (ai.py lines 258 and 277). -/
def eligible_producers (env : Env) : List Producer :=
  env.producers.filter (fun p => p.status == str "approved" && p.is_active)

/-- Ids of eligible producers with truthy coordinates within 20 km
(ai.py lines 257-263); a distance of None or 0.0 is falsy and skipped. -/
def nearby_producer_ids (T : TrigOps) (env : Env) (lat lon : ℚ) : List ℕ :=
  (eligible_producers env).filterMap (fun p =>
    if truthyNum p.latitude && truthyNum p.longitude then
      match calculate_distance T (some lat) (some lon) p.latitude p.longitude with
      | some dist => if !(dist == 0) && decide (dist ≤ 20) then some p.id else none
      | none => none
    else none)

/-- Ids of eligible producers whose truthy specialty matches some stripped
user preference (ai.py lines 276-291). -/
def matching_cuisine_producer_ids (env : Env) (prefs : List Str) : List ℕ :=
  (eligible_producers env).filterMap (fun p =>
    match p.cuisine_specialty with
    | some spec =>
      if !(spec == []) && prefs.any (fun c => cuisine_matches (stripStr c) spec)
      then some p.id else none
    | none => none)

/-- Hard dietary filter filter_by(dietary_type=...lower()) (ai.py line 312). -/
def dietFilterPred (user : User) (d : Dish) : Bool :=
  d.dietary_type == some (lowerStr (user.dietary_preferences.getD []))

/-- Hard spice filter filter_by(spice_level=...lower()) (ai.py line 315). -/
def spiceFilterPred (user : User) (d : Dish) : Bool :=
  d.spice_level == some (lowerStr (user.spice_level.getD []))

/-- Database lexicographic sort key of the candidate queries: rating
descending, then order count descending, then view count descending
(ai.py lines 330-334); a stable sort models the unspecified order of full
ties. -/
def dishRank (a b : Dish) : Prop :=
  b.average_rating < a.average_rating ∨
    (b.average_rating = a.average_rating ∧
      (b.order_count < a.order_count ∨
        (b.order_count = a.order_count ∧ b.view_count ≤ a.view_count)))

instance : DecidableRel dishRank := fun a b => by unfold dishRank; infer_instance

/-- Sorted-and-capped candidate pool of one query: order_by the three keys
then limit(limit * 5) (ai.py lines 330-334). -/
def takePool (limit : ℕ) (l : List Dish) : List Dish :=
  (List.insertionSort dishRank l).take (limit * 5)

/-- The catalog after the optional location stage (ai.py lines 254-268):
applied only when both coordinates are truthy and at least one nearby
producer was found. -/
def afterLocation (T : TrigOps) (env : Env) (lat lon : Option ℚ) : List Dish :=
  if truthyNum lat && truthyNum lon then
    if !(nearby_producer_ids T env (lat.getD 0) (lon.getD 0) == []) then
      (available_dishes env).filter
        (fun d => (nearby_producer_ids T env (lat.getD 0) (lon.getD 0)).contains
          d.producer_id)
    else available_dishes env
  else available_dishes env

/-- The hard dietary filter followed by the hard spice filter, each applied
only when the corresponding preference is truthy (ai.py lines 310-327 and
350-358). -/
def dietSpiceFiltered (user : User) (base : List Dish) : List Dish :=
  if truthyStr user.spice_level then
    (if truthyStr user.dietary_preferences then base.filter (dietFilterPred user)
     else base).filter (spiceFilterPred user)
  else if truthyStr user.dietary_preferences then base.filter (dietFilterPred user)
  else base

/-- Mutable state of the cascade: the current candidate list and the three
filter-applied flags the source tracks (ai.py lines 242-245). -/
structure CState where
  dishes : List Dish
  cuisineApplied : Bool
  dietaryApplied : Bool
  spiceApplied : Bool
deriving DecidableEq

/-- The initial strict query (ai.py lines 254-334): location stage, then
either the cuisine filter (suppressing hard dietary and spice filters) or the
dietary and spice filters, then the sorted capped fetch. -/
def initialState (T : TrigOps) (env : Env) (user : User) (lat lon : Option ℚ)
    (limit : ℕ) : CState :=
  if !(user.preferred_cuisines == []) then
    if !(matching_cuisine_producer_ids env user.preferred_cuisines == []) then
      { dishes := takePool limit ((afterLocation T env lat lon).filter
          (fun d => (matching_cuisine_producer_ids env
            user.preferred_cuisines).contains d.producer_id)),
        cuisineApplied := true, dietaryApplied := false, spiceApplied := false }
    else
      { dishes := takePool limit (dietSpiceFiltered user (afterLocation T env lat lon)),
        cuisineApplied := false,
        dietaryApplied := truthyStr user.dietary_preferences,
        spiceApplied := truthyStr user.spice_level }
  else
    { dishes := takePool limit (dietSpiceFiltered user (afterLocation T env lat lon)),
      cuisineApplied := false,
      dietaryApplied := truthyStr user.dietary_preferences,
      spiceApplied := truthyStr user.spice_level }

/-- Fallback level 1 (ai.py lines 345-366): drop the cuisine filter and retry
with the dietary and spice filters over the full available catalog. -/
def fallback1 (env : Env) (user : User) (limit : ℕ) (st : CState) : CState :=
  if st.dishes == [] && st.cuisineApplied then
    { dishes := takePool limit (dietSpiceFiltered user (available_dishes env)),
      cuisineApplied := false,
      dietaryApplied := if truthyStr user.dietary_preferences then true
        else st.dietaryApplied,
      spiceApplied := if truthyStr user.spice_level then true else st.spiceApplied }
  else st

/-- Fallback level 2 (ai.py lines 368-381): drop the spice filter. -/
def fallback2 (env : Env) (user : User) (limit : ℕ) (st : CState) : CState :=
  if st.dishes == [] && st.spiceApplied then
    { st with
        dishes := takePool limit
          (if st.dietaryApplied && truthyStr user.dietary_preferences then
            (available_dishes env).filter (dietFilterPred user)
          else available_dishes env),
        spiceApplied := false }
  else st

/-- Fallback level 3 (ai.py lines 383-391): drop the dietary filter too. -/
def fallback3 (env : Env) (limit : ℕ) (st : CState) : CState :=
  if st.dishes == [] && st.dietaryApplied then
    { st with dishes := takePool limit (available_dishes env), dietaryApplied := false }
  else st

/-- Fallback level 4 (ai.py lines 393-400): any available dishes at all. -/
def fallback4 (env : Env) (limit : ℕ) (st : CState) : CState :=
  if st.dishes == [] then
    { st with dishes := takePool limit (available_dishes env) }
  else st

/-- The full filter cascade: initial strict query then the four fallback
levels in order. -/
def cascadeState (T : TrigOps) (env : Env) (user : User) (lat lon : Option ℚ)
    (limit : ℕ) : CState :=
  fallback4 env limit (fallback3 env limit (fallback2 env user limit
    (fallback1 env user limit (initialState T env user lat lon limit))))

/-- Sort key of the last-resort popular query (ai.py lines 407-410): rating
descending then order count descending. -/
def lastResortRank (a b : Dish) : Prop :=
  b.average_rating < a.average_rating ∨
    (b.average_rating = a.average_rating ∧ b.order_count ≤ a.order_count)

instance : DecidableRel lastResortRank := fun a b => by
  unfold lastResortRank; infer_instance

/-- The last-resort return of popular dishes when even the fallbacks found
nothing (ai.py lines 402-414); empty exactly when the catalog has no
available dish or the limit is zero. -/
def last_resort (env : Env) (limit : ℕ) : List Dish :=
  (List.insertionSort lastResortRank (available_dishes env)).take limit

/-- Score-descending order on scored entries; a stable sort with ties kept in
place models Python list.sort(key=score, reverse=True). -/
def scoreGe (a b : Dish × ℚ) : Prop := b.2 ≤ a.2

instance : DecidableRel scoreGe := fun a b => by unfold scoreGe; infer_instance

instance : IsTotal (Dish × ℚ) scoreGe := ⟨fun a b => le_total b.2 a.2⟩

instance : IsTrans (Dish × ℚ) scoreGe := ⟨fun _ _ _ h1 h2 => le_trans h2 h1⟩

/-- Python list.sort(key=score, reverse=True) on scored entries. -/
def sortScored (l : List (Dish × ℚ)) : List (Dish × ℚ) :=
  List.insertionSort scoreGe l

/-- The scored list after the in-place sort of ai.py line 573. -/
def scoredSorted (env : Env) (user : User) (cuisineApplied : Bool)
    (pool : List Dish) : List (Dish × ℚ) :=
  sortScored (scored_dishes env user cuisineApplied pool)

/-- The cuisine-match test of the partition loop (ai.py lines 586-592), which
looks the producer up again and strips each preference before matching. -/
def partitionMatch (env : Env) (prefs : List Str) (d : Dish) : Bool :=
  match producerById env d.producer_id with
  | some p =>
    match p.cuisine_specialty with
    | some spec =>
      !(spec == []) && prefs.any (fun c => cuisine_matches (stripStr c) spec)
    | none => false
  | none => false

/-- The cuisine-matched side of the partition (ai.py lines 585-597), in the
order of the sorted scored list. -/
def matchedPart (env : Env) (user : User) (cuisineApplied : Bool)
    (pool : List Dish) : List (Dish × ℚ) :=
  (scoredSorted env user cuisineApplied pool).filter
    (fun e => partitionMatch env user.preferred_cuisines e.1)

/-- The non-matched side of the partition (ai.py lines 585-597). -/
def otherPart (env : Env) (user : User) (cuisineApplied : Bool)
    (pool : List Dish) : List (Dish × ℚ) :=
  (scoredSorted env user cuisineApplied pool).filter
    (fun e => !(partitionMatch env user.preferred_cuisines e.1))

/-- The up-to-limit prefix taken from the sorted matched partition
(ai.py line 606). -/
def matchedTake (env : Env) (user : User) (cuisineApplied : Bool) (limit : ℕ)
    (pool : List Dish) : List Dish :=
  ((sortScored (matchedPart env user cuisineApplied pool)).take limit).map Prod.fst

/-- The top_dishes list before the final fill step (ai.py lines 579-612):
with a cuisine preference, up to limit matched dishes first, then other
dishes in the remaining slots; otherwise the top limit by score. -/
def topDishes (env : Env) (user : User) (cuisineApplied : Bool) (limit : ℕ)
    (pool : List Dish) : List Dish :=
  if !(user.preferred_cuisines == []) then
    if (matchedTake env user cuisineApplied limit pool).length < limit &&
        !(otherPart env user cuisineApplied pool == []) then
      matchedTake env user cuisineApplied limit pool ++
        ((sortScored (otherPart env user cuisineApplied pool)).take
          (limit - (matchedTake env user cuisineApplied limit pool).length)).map
          Prod.fst
    else matchedTake env user cuisineApplied limit pool
  else ((scoredSorted env user cuisineApplied pool).take limit).map Prod.fst

/-- One insertion into the Python dict keyed by dish id: an existing key keeps
its position and takes the new value, a new key is appended. -/
def dictInsert (acc : List Dish) (d : Dish) : List Dish :=
  if acc.any (fun e => e.id == d.id) then
    acc.map (fun e => if e.id == d.id then d else e)
  else acc ++ [d]

/-- The values of the dict {d.id: d for d, s in scored_dishes}
(ai.py line 617). -/
def dedupById (l : List Dish) : List Dish := l.foldl dictInsert []

/-- The remaining dishes considered by the fill step (ai.py lines 617-618):
the deduplicated scored dishes not already taken. -/
def remainingDishes (env : Env) (user : User) (cuisineApplied : Bool)
    (pool : List Dish) (top : List Dish) : List Dish :=
  (dedupById ((scoredSorted env user cuisineApplied pool).map Prod.fst)).filter
    (fun d => !(top.contains d))

/-- The fill candidates (ai.py lines 620-622): remaining dishes re-paired
with their scores by id lookup with default -100, score-sorted, and
thresholded at -20. -/
def fillCandidates (env : Env) (user : User) (cuisineApplied : Bool)
    (pool : List Dish) (top : List Dish) : List Dish :=
  ((sortScored ((remainingDishes env user cuisineApplied pool top).map (fun d =>
      (d, (((scoredSorted env user cuisineApplied pool).find?
          (fun e => e.1.id == d.id)).map Prod.snd).getD (-100))))).filter
    (fun e => decide ((-20 : ℚ) < e.2))).map Prod.fst

/-- The final fill step (ai.py lines 614-623): when fewer than limit dishes
were taken, append remaining scored dishes with score above -20. -/
def fillRemaining (env : Env) (user : User) (cuisineApplied : Bool) (limit : ℕ)
    (pool : List Dish) (top : List Dish) : List Dish :=
  if top.length < limit then
    top ++ (fillCandidates env user cuisineApplied pool top).take (limit - top.length)
  else top

/-- Scoring plus composition over a fixed candidate pool
(ai.py lines 418-626). -/
def composeResult (env : Env) (user : User) (cuisineApplied : Bool) (limit : ℕ)
    (pool : List Dish) : List Dish :=
  fillRemaining env user cuisineApplied limit pool
    (topDishes env user cuisineApplied limit pool)

/-- Source get_rule_based_recommendations (ai.py lines 203-636): run the
cascade; if it produced nothing return the last-resort popular list, else
score and compose the pool. -/
def get_rule_based_recommendations (T : TrigOps) (env : Env) (user : User)
    (lat lon : Option ℚ) (limit : ℕ) : List Dish :=
  if (cascadeState T env user lat lon limit).dishes == [] then
    last_resort env limit
  else
    composeResult env user (cascadeState T env user lat lon limit).cuisineApplied
      limit (cascadeState T env user lat lon limit).dishes

/-! Supporting lemmas about the sorting helpers and the scored list. -/

theorem mem_sortScored {e : Dish × ℚ} {l : List (Dish × ℚ)} :
    e ∈ sortScored l ↔ e ∈ l :=
  (List.perm_insertionSort scoreGe l).mem_iff

theorem sortScored_eq_nil_iff {l : List (Dish × ℚ)} :
    sortScored l = [] ↔ l = [] := by
  constructor
  · intro h
    have hp := (List.perm_insertionSort scoreGe l).length_eq
    unfold sortScored at h
    rw [h] at hp
    exact List.eq_nil_of_length_eq_zero hp.symm
  · intro h; subst h; rfl

theorem length_sortScored (l : List (Dish × ℚ)) :
    (sortScored l).length = l.length :=
  (List.perm_insertionSort scoreGe l).length_eq

theorem scoredEntry_eq (env : Env) (user : User) (cApp : Bool) (d : Dish) :
    scoredEntry env user cApp d =
      (if includeDish env user cApp d then some (d, finalScore env user cApp d)
       else none) := by
  unfold scoredEntry includeDish finalScore
  cases h1 : dish_cuisine_matches env user.preferred_cuisines d with
  | true => simp [h1]
  | false =>
    by_cases h2 : ((-30 : ℚ) < scoreDish env user cApp d) <;> simp [h1, h2]

theorem mem_scored_dishes {env : Env} {user : User} {cApp : Bool}
    {pool : List Dish} {e : Dish × ℚ} :
    e ∈ scored_dishes env user cApp pool ↔
      e.1 ∈ pool ∧ includeDish env user cApp e.1 = true ∧
        e.2 = finalScore env user cApp e.1 := by
  unfold scored_dishes
  rw [List.mem_filterMap]
  constructor
  · rintro ⟨a, ha, hf⟩
    rw [scoredEntry_eq] at hf
    by_cases hi : includeDish env user cApp a
    · rw [if_pos hi] at hf
      obtain rfl := Option.some.inj hf
      exact ⟨ha, hi, rfl⟩
    · rw [if_neg hi] at hf; cases hf
  · rintro ⟨h1, h2, h3⟩
    refine ⟨e.1, h1, ?_⟩
    rw [scoredEntry_eq, if_pos h2]
    cases e with
    | mk d s => simp only at h3; rw [h3]

theorem mem_scoredSorted {env : Env} {user : User} {cApp : Bool}
    {pool : List Dish} {e : Dish × ℚ} :
    e ∈ scoredSorted env user cApp pool ↔
      e.1 ∈ pool ∧ includeDish env user cApp e.1 = true ∧
        e.2 = finalScore env user cApp e.1 := by
  unfold scoredSorted
  rw [mem_sortScored, mem_scored_dishes]

theorem scoredSorted_eq_nil_iff {env : Env} {user : User} {cApp : Bool}
    {pool : List Dish} :
    scoredSorted env user cApp pool = [] ↔
      ∀ d ∈ pool, includeDish env user cApp d = false := by
  unfold scoredSorted
  rw [sortScored_eq_nil_iff]
  unfold scored_dishes
  rw [List.filterMap_eq_nil_iff]
  constructor
  · intro h d hd
    have := h d hd
    rw [scoredEntry_eq] at this
    by_cases hi : includeDish env user cApp d
    · rw [if_pos hi] at this; cases this
    · exact Bool.eq_false_iff.mpr hi
  · intro h a ha
    rw [scoredEntry_eq, if_neg]
    rw [h a ha]; exact Bool.false_ne_true

theorem takePool_subset {limit : ℕ} {l : List Dish} :
    ∀ d ∈ takePool limit l, d ∈ l := by
  intro d hd
  unfold takePool at hd
  have h1 := (List.take_sublist (limit * 5) (List.insertionSort dishRank l)).subset hd
  exact (List.perm_insertionSort dishRank l).mem_iff.mp h1

theorem takePool_eq_nil_iff {limit : ℕ} {l : List Dish} :
    takePool limit l = [] ↔ limit * 5 = 0 ∨ l = [] := by
  unfold takePool
  rw [List.take_eq_nil_iff]
  constructor
  · rintro (h | h)
    · left; exact h
    · right
      have hp := (List.perm_insertionSort dishRank l).length_eq
      rw [h] at hp
      exact List.eq_nil_of_length_eq_zero hp.symm
  · rintro (h | h)
    · left; exact h
    · right; subst h; rfl

theorem afterLocation_subset {T : TrigOps} {env : Env} {lat lon : Option ℚ} :
    ∀ d ∈ afterLocation T env lat lon, d ∈ available_dishes env := by
  intro d hd
  unfold afterLocation at hd
  split at hd
  · split at hd
    · exact List.mem_of_mem_filter hd
    · exact hd
  · exact hd

theorem dietSpiceFiltered_subset {user : User} {base : List Dish} :
    ∀ d ∈ dietSpiceFiltered user base, d ∈ base := by
  intro d hd
  unfold dietSpiceFiltered at hd
  split at hd
  · have h1 := List.mem_of_mem_filter hd
    split at h1
    · exact List.mem_of_mem_filter h1
    · exact h1
  · split at hd
    · exact List.mem_of_mem_filter hd
    · exact hd

theorem initialState_subset {T : TrigOps} {env : Env} {user : User}
    {lat lon : Option ℚ} {limit : ℕ} :
    ∀ d ∈ (initialState T env user lat lon limit).dishes,
      d ∈ available_dishes env := by
  intro d hd
  unfold initialState at hd
  split at hd
  · split at hd
    · simp only at hd
      exact afterLocation_subset d (List.mem_of_mem_filter (takePool_subset d hd))
    · simp only at hd
      exact afterLocation_subset d (dietSpiceFiltered_subset d (takePool_subset d hd))
  · simp only at hd
    exact afterLocation_subset d (dietSpiceFiltered_subset d (takePool_subset d hd))

theorem fallback1_subset {env : Env} {user : User} {limit : ℕ} {st : CState}
    (hst : ∀ d ∈ st.dishes, d ∈ available_dishes env) :
    ∀ d ∈ (fallback1 env user limit st).dishes, d ∈ available_dishes env := by
  intro d hd
  unfold fallback1 at hd
  split at hd
  · simp only at hd
    exact dietSpiceFiltered_subset d (takePool_subset d hd)
  · exact hst d hd

theorem fallback2_subset {env : Env} {user : User} {limit : ℕ} {st : CState}
    (hst : ∀ d ∈ st.dishes, d ∈ available_dishes env) :
    ∀ d ∈ (fallback2 env user limit st).dishes, d ∈ available_dishes env := by
  intro d hd
  unfold fallback2 at hd
  split at hd
  · simp only at hd
    have h1 := takePool_subset d hd
    split at h1
    · exact List.mem_of_mem_filter h1
    · exact h1
  · exact hst d hd

theorem fallback3_subset {env : Env} {limit : ℕ} {st : CState}
    (hst : ∀ d ∈ st.dishes, d ∈ available_dishes env) :
    ∀ d ∈ (fallback3 env limit st).dishes, d ∈ available_dishes env := by
  intro d hd
  unfold fallback3 at hd
  split at hd
  · simp only at hd
    exact takePool_subset d hd
  · exact hst d hd

theorem fallback4_subset {env : Env} {limit : ℕ} {st : CState}
    (hst : ∀ d ∈ st.dishes, d ∈ available_dishes env) :
    ∀ d ∈ (fallback4 env limit st).dishes, d ∈ available_dishes env := by
  intro d hd
  unfold fallback4 at hd
  split at hd
  · simp only at hd
    exact takePool_subset d hd
  · exact hst d hd

theorem cascadeState_subset {T : TrigOps} {env : Env} {user : User}
    {lat lon : Option ℚ} {limit : ℕ} :
    ∀ d ∈ (cascadeState T env user lat lon limit).dishes,
      d ∈ available_dishes env := by
  unfold cascadeState
  exact fallback4_subset (fallback3_subset (fallback2_subset
    (fallback1_subset initialState_subset)))

theorem mem_available_dishes {env : Env} {d : Dish} :
    d ∈ available_dishes env ↔ d ∈ env.dishes ∧ d.is_available = true := by
  unfold available_dishes
  rw [List.mem_filter]

theorem cascadeState_dishes_eq_nil_iff {T : TrigOps} {env : Env} {user : User}
    {lat lon : Option ℚ} {limit : ℕ} :
    (cascadeState T env user lat lon limit).dishes = [] ↔
      limit = 0 ∨ available_dishes env = [] := by
  constructor
  · intro h
    unfold cascadeState fallback4 at h
    split at h
    · simp only at h
      rcases takePool_eq_nil_iff.mp h with h5 | h5
      · left; omega
      · right; exact h5
    · rename_i hne
      rw [h] at hne
      simp at hne
  · intro h
    have hpool : ∀ l : List Dish, (∀ d ∈ l, d ∈ available_dishes env) →
        takePool limit l = [] := by
      intro l hl
      rcases h with h | h
      · exact takePool_eq_nil_iff.mpr (Or.inl (by rw [h]))
      · refine takePool_eq_nil_iff.mpr (Or.inr ?_)
        cases hll : l with
        | nil => rfl
        | cons a as =>
          exfalso
          have := hl a (by rw [hll]; exact List.mem_cons_self a as)
          rw [h] at this
          cases this
    have hinit : (initialState T env user lat lon limit).dishes = [] := by
      unfold initialState
      split
      · split
        · simp only
          exact hpool _ (fun d hd =>
            afterLocation_subset d (List.mem_of_mem_filter hd))
        · simp only
          exact hpool _ (fun d hd =>
            afterLocation_subset d (dietSpiceFiltered_subset d hd))
      · simp only
        exact hpool _ (fun d hd =>
          afterLocation_subset d (dietSpiceFiltered_subset d hd))
    have hf1 : (fallback1 env user limit
        (initialState T env user lat lon limit)).dishes = [] := by
      unfold fallback1
      split
      · simp only
        exact hpool _ (fun d hd => dietSpiceFiltered_subset d hd)
      · exact hinit
    have hf2 : (fallback2 env user limit (fallback1 env user limit
        (initialState T env user lat lon limit))).dishes = [] := by
      unfold fallback2
      split
      · simp only
        refine hpool _ (fun d hd => ?_)
        split at hd
        · exact List.mem_of_mem_filter hd
        · exact hd
      · exact hf1
    have hf3 : (fallback3 env limit (fallback2 env user limit (fallback1 env user limit
        (initialState T env user lat lon limit)))).dishes = [] := by
      unfold fallback3
      split
      · simp only
        exact hpool _ (fun d hd => hd)
      · exact hf2
    unfold cascadeState fallback4
    split
    · simp only
      exact hpool _ (fun d hd => hd)
    · exact hf3

/-! Supporting lemmas about the composition step. -/

theorem contains_iff_mem {l : List Dish} {d : Dish} :
    l.contains d = true ↔ d ∈ l := List.elem_iff

theorem mem_dictInsert {acc : List Dish} {d x : Dish}
    (hx : x ∈ dictInsert acc d) : x ∈ acc ∨ x = d := by
  unfold dictInsert at hx
  split at hx
  · rcases List.mem_map.mp hx with ⟨e, he, hxe⟩
    by_cases hid : (e.id == d.id) = true
    · rw [if_pos hid] at hxe
      right; exact hxe.symm
    · rw [if_neg hid] at hxe
      left; rw [← hxe]; exact he
  · rcases List.mem_append.mp hx with h | h
    · left; exact h
    · right; simpa using h

theorem foldl_dictInsert_mem {l : List Dish} :
    ∀ {acc x}, x ∈ l.foldl dictInsert acc → x ∈ acc ∨ x ∈ l := by
  induction l with
  | nil => intro acc x hx; exact Or.inl hx
  | cons d rest ih =>
    intro acc x hx
    rcases ih hx with h | h
    · rcases mem_dictInsert h with h2 | h2
      · exact Or.inl h2
      · exact Or.inr (by rw [h2]; exact List.mem_cons_self d rest)
    · exact Or.inr (List.mem_cons_of_mem d h)

theorem dedupById_subset {l : List Dish} : ∀ x ∈ dedupById l, x ∈ l := by
  intro x hx
  rcases foldl_dictInsert_mem hx with h | h
  · cases h
  · exact h

theorem length_matchedTake (env : Env) (user : User) (cApp : Bool) (limit : ℕ)
    (pool : List Dish) :
    (matchedTake env user cApp limit pool).length =
      min limit (matchedPart env user cApp pool).length := by
  unfold matchedTake
  rw [List.length_map, List.length_take, length_sortScored]

theorem mem_matchedTake {env : Env} {user : User} {cApp : Bool} {limit : ℕ}
    {pool : List Dish} {d : Dish} (hd : d ∈ matchedTake env user cApp limit pool) :
    ∃ e ∈ matchedPart env user cApp pool, e.1 = d := by
  unfold matchedTake at hd
  rcases List.mem_map.mp hd with ⟨e, he, hed⟩
  exact ⟨e, mem_sortScored.mp (List.mem_of_mem_take he), hed⟩

theorem scoredSorted_mem_split {env : Env} {user : User} {cApp : Bool}
    {pool : List Dish} {e : Dish × ℚ} (he : e ∈ scoredSorted env user cApp pool) :
    e ∈ matchedPart env user cApp pool ∨ e ∈ otherPart env user cApp pool := by
  by_cases hp : partitionMatch env user.preferred_cuisines e.1 = true
  · left; exact List.mem_filter.mpr ⟨he, hp⟩
  · right
    exact List.mem_filter.mpr ⟨he, by simp [hp]⟩

theorem mem_matchedTake_of_short {env : Env} {user : User} {cApp : Bool}
    {limit : ℕ} {pool : List Dish} {e : Dish × ℚ}
    (hmlen : (matchedPart env user cApp pool).length < limit)
    (h : e ∈ matchedPart env user cApp pool) :
    e.1 ∈ matchedTake env user cApp limit pool := by
  unfold matchedTake
  have hms : (sortScored (matchedPart env user cApp pool)).take limit =
      sortScored (matchedPart env user cApp pool) := by
    apply List.take_of_length_le
    rw [length_sortScored]
    omega
  rw [hms]
  exact List.mem_map.mpr ⟨e, mem_sortScored.mpr h, rfl⟩

theorem topDishes_covers {env : Env} {user : User} {cApp : Bool} {limit : ℕ}
    {pool : List Dish}
    (hlen : (topDishes env user cApp limit pool).length < limit) :
    ∀ e ∈ scoredSorted env user cApp pool,
      e.1 ∈ topDishes env user cApp limit pool := by
  intro e he
  unfold topDishes at hlen ⊢
  split at hlen
  · rename_i hpref
    rw [if_pos hpref]
    split at hlen
    · rename_i hcond
      rw [if_pos hcond]
      rw [List.length_append] at hlen
      have htmin := length_matchedTake env user cApp limit pool
      have htlen : (matchedTake env user cApp limit pool).length < limit := by
        omega
      have hmlen : (matchedPart env user cApp pool).length < limit := by
        omega
      have hseglen : ((sortScored (otherPart env user cApp pool)).take
          (limit - (matchedTake env user cApp limit pool).length)).length <
            limit - (matchedTake env user cApp limit pool).length := by
        rw [List.length_map] at hlen
        omega
      have holen : (sortScored (otherPart env user cApp pool)).length <
          limit - (matchedTake env user cApp limit pool).length := by
        rw [List.length_take] at hseglen
        omega
      rcases scoredSorted_mem_split he with h | h
      · exact List.mem_append.mpr (Or.inl (mem_matchedTake_of_short hmlen h))
      · refine List.mem_append.mpr (Or.inr ?_)
        have hos : (sortScored (otherPart env user cApp pool)).take
            (limit - (matchedTake env user cApp limit pool).length) =
              sortScored (otherPart env user cApp pool) := by
          apply List.take_of_length_le
          omega
        rw [hos]
        exact List.mem_map.mpr ⟨e, mem_sortScored.mpr h, rfl⟩
    · rename_i hcond
      rw [if_neg hcond]
      have hother : otherPart env user cApp pool = [] := by
        by_contra hne
        apply hcond
        rw [Bool.and_eq_true, decide_eq_true_eq, Bool.not_eq_eq_eq_not]
        refine ⟨hlen, ?_⟩
        simpa using hne
      rcases scoredSorted_mem_split he with h | h
      · have htmin := length_matchedTake env user cApp limit pool
        have hmlen : (matchedPart env user cApp pool).length < limit := by
          omega
        exact mem_matchedTake_of_short hmlen h
      · rw [hother] at h
        cases h
  · rename_i hpref
    rw [if_neg hpref]
    rw [List.length_map, List.length_take] at hlen
    have hall : (scoredSorted env user cApp pool).take limit =
        scoredSorted env user cApp pool := by
      apply List.take_of_length_le
      omega
    rw [hall]
    exact List.mem_map.mpr ⟨e, he, rfl⟩

theorem composeResult_eq_topDishes (env : Env) (user : User) (cApp : Bool)
    (limit : ℕ) (pool : List Dish) :
    composeResult env user cApp limit pool = topDishes env user cApp limit pool := by
  unfold composeResult fillRemaining
  split
  · rename_i hlen
    have hrem : remainingDishes env user cApp pool
        (topDishes env user cApp limit pool) = [] := by
      unfold remainingDishes
      rw [List.filter_eq_nil_iff]
      intro d hd
      have hd2 := dedupById_subset d hd
      rcases List.mem_map.mp hd2 with ⟨e, he, hed⟩
      have hmem := topDishes_covers hlen e he
      rw [hed] at hmem
      simpa using hmem
    have hfc : fillCandidates env user cApp pool
        (topDishes env user cApp limit pool) = [] := by
      unfold fillCandidates
      rw [hrem]
      rfl
    rw [hfc, List.take_nil, List.append_nil]
  · rfl

theorem topDishes_length_le (env : Env) (user : User) (cApp : Bool) (limit : ℕ)
    (pool : List Dish) :
    (topDishes env user cApp limit pool).length ≤ limit := by
  unfold topDishes
  have htmin := length_matchedTake env user cApp limit pool
  split
  · split
    · rw [List.length_append, List.length_map, List.length_take, length_sortScored]
      omega
    · omega
  · rw [List.length_map, List.length_take]
    omega

theorem mem_topDishes {env : Env} {user : User} {cApp : Bool} {limit : ℕ}
    {pool : List Dish} {d : Dish} (hd : d ∈ topDishes env user cApp limit pool) :
    ∃ e ∈ scoredSorted env user cApp pool, e.1 = d := by
  unfold topDishes at hd
  split at hd
  · split at hd
    · rcases List.mem_append.mp hd with h | h
      · rcases mem_matchedTake h with ⟨e, he, hed⟩
        exact ⟨e, List.mem_of_mem_filter he, hed⟩
      · rcases List.mem_map.mp h with ⟨e, he, hed⟩
        have h2 := mem_sortScored.mp (List.mem_of_mem_take he)
        exact ⟨e, List.mem_of_mem_filter h2, hed⟩
    · rcases mem_matchedTake hd with ⟨e, he, hed⟩
      exact ⟨e, List.mem_of_mem_filter he, hed⟩
  · rcases List.mem_map.mp hd with ⟨e, he, hed⟩
    exact ⟨e, List.mem_of_mem_take he, hed⟩

theorem topDishes_of_scored_nil {env : Env} {user : User} {cApp : Bool}
    {limit : ℕ} {pool : List Dish}
    (h : scoredSorted env user cApp pool = []) :
    topDishes env user cApp limit pool = [] := by
  have hm : matchedPart env user cApp pool = [] := by
    unfold matchedPart
    rw [h]
    rfl
  have ho : otherPart env user cApp pool = [] := by
    unfold otherPart
    rw [h]
    rfl
  have hsnil : sortScored ([] : List (Dish × ℚ)) = [] := rfl
  have ht : matchedTake env user cApp limit pool = [] := by
    unfold matchedTake
    rw [hm, hsnil, List.take_nil, List.map_nil]
  unfold topDishes
  split
  · rw [ho, ht]
    simp
  · rw [h, List.take_nil, List.map_nil]

theorem topDishes_ne_nil {env : Env} {user : User} {cApp : Bool} {limit : ℕ}
    {pool : List Dish} (hlim : 1 ≤ limit)
    (h : scoredSorted env user cApp pool ≠ []) :
    topDishes env user cApp limit pool ≠ [] := by
  have hslen : 1 ≤ (scoredSorted env user cApp pool).length :=
    List.length_pos.mpr h
  have hsum := List.length_eq_length_filter_add
    (l := scoredSorted env user cApp pool)
    (fun e => partitionMatch env user.preferred_cuisines e.1)
  have hmlen : (matchedPart env user cApp pool).length =
      ((scoredSorted env user cApp pool).filter
        (fun e => partitionMatch env user.preferred_cuisines e.1)).length := rfl
  have holen : (otherPart env user cApp pool).length =
      ((scoredSorted env user cApp pool).filter
        (fun e => !(partitionMatch env user.preferred_cuisines e.1))).length := rfl
  have htmin := length_matchedTake env user cApp limit pool
  intro hnil
  unfold topDishes at hnil
  split at hnil
  · split at hnil
    · rename_i hcond
      simp only [Bool.and_eq_true, decide_eq_true_eq, Bool.not_eq_true',
        beq_eq_false_iff_ne] at hcond
      have hlen0 := congrArg List.length hnil
      rw [List.length_append, List.length_map, List.length_take,
        length_sortScored] at hlen0
      simp only [List.length_nil] at hlen0
      have ho1 : 1 ≤ (otherPart env user cApp pool).length :=
        List.length_pos.mpr hcond.2
      omega
    · rename_i hcond
      simp only [Bool.and_eq_true, decide_eq_true_eq, Bool.not_eq_true',
        beq_eq_false_iff_ne, not_and] at hcond
      have hlen0 := congrArg List.length hnil
      simp only [List.length_nil] at hlen0
      by_cases hother : otherPart env user cApp pool = []
      · have ho0 : (otherPart env user cApp pool).length = 0 := by
          rw [hother]; rfl
        omega
      · have hnlt : ¬((matchedTake env user cApp limit pool).length < limit) := by
          intro hlt
          exact hcond hlt hother
        omega
  · have hlen0 := congrArg List.length hnil
    rw [List.length_map, List.length_take] at hlen0
    simp only [List.length_nil] at hlen0
    omega

theorem rec_eq (T : TrigOps) (env : Env) (user : User) (lat lon : Option ℚ)
    (limit : ℕ) :
    get_rule_based_recommendations T env user lat lon limit =
      (if (cascadeState T env user lat lon limit).dishes == [] then
        last_resort env limit
      else topDishes env user (cascadeState T env user lat lon limit).cuisineApplied
        limit (cascadeState T env user lat lon limit).dishes) := by
  unfold get_rule_based_recommendations
  split
  · rfl
  · exact composeResult_eq_topDishes env user
      (cascadeState T env user lat lon limit).cuisineApplied limit
      (cascadeState T env user lat lon limit).dishes

theorem last_resort_of_no_dishes {env : Env} {limit : ℕ}
    (h : limit = 0 ∨ available_dishes env = []) : last_resort env limit = [] := by
  unfold last_resort
  rcases h with h | h
  · rw [h]
    rfl
  · rw [h]
    have : List.insertionSort lastResortRank ([] : List Dish) = [] := rfl
    rw [this, List.take_nil]

theorem rec_empty_iff {T : TrigOps} {env : Env} {user : User} {lat lon : Option ℚ}
    {limit : ℕ} (hlim : 1 ≤ limit) :
    get_rule_based_recommendations T env user lat lon limit = [] ↔
      ∀ d ∈ (cascadeState T env user lat lon limit).dishes,
        includeDish env user (cascadeState T env user lat lon limit).cuisineApplied
          d = false := by
  rw [rec_eq]
  by_cases hnil : (cascadeState T env user lat lon limit).dishes = []
  · rw [if_pos (by simpa using hnil)]
    constructor
    · intro _ d hd
      rw [hnil] at hd
      cases hd
    · intro _
      exact last_resort_of_no_dishes (cascadeState_dishes_eq_nil_iff.mp hnil)
  · rw [if_neg (by simpa using hnil)]
    constructor
    · intro htop
      rw [← scoredSorted_eq_nil_iff]
      by_contra hsne
      exact topDishes_ne_nil hlim hsne htop
    · intro hall
      exact topDishes_of_scored_nil (scoredSorted_eq_nil_iff.mpr hall)

theorem pairwise_final (env : Env) (user : User) (cApp : Bool) (pool : List Dish)
    (l : List (Dish × ℚ)) (n : ℕ)
    (hsub : ∀ e ∈ l, e ∈ scoredSorted env user cApp pool)
    (hsort : List.Pairwise scoreGe l) :
    ((l.take n).map Prod.fst).Pairwise
      (fun a b => finalScore env user cApp b ≤ finalScore env user cApp a) := by
  rw [List.pairwise_map]
  have h1 : (l.take n).Pairwise scoreGe :=
    List.Pairwise.sublist (List.take_sublist n l) hsort
  refine h1.imp_of_mem ?_
  intro a b ha hb hr
  have hsa := mem_scoredSorted.mp (hsub a (List.mem_of_mem_take ha))
  have hsb := mem_scoredSorted.mp (hsub b (List.mem_of_mem_take hb))
  rw [← hsa.2.2, ← hsb.2.2]
  exact hr

/-! Sample data used to instantiate closed statements. -/

/-- A dish declaring the allergen nuts, otherwise unremarkable. -/
def allergenDish : Dish :=
  { id := 1, producer_id := 1, price := 5, currency := none, category := none,
    dietary_type := none, spice_level := none, allergens := [str "nuts"],
    ingredients := none, description := none, is_available := true,
    average_rating := 0, view_count := 0, order_count := 0 }

/-- A catalog holding only the nut dish. -/
def envAllergen : Env :=
  { dishes := [allergenDish], producers := [], orders := [], reviews := [] }

/-- A user avoiding nuts, with no other preference. -/
def userNutAvoider : User :=
  { id := 1, dietary_preferences := none, spice_level := none,
    budget_preference := none, preferred_cuisines := [],
    dietary_restrictions := [], allergens := [str "nuts"],
    meal_preferences := [] }

/-- C1 counterexample: the catalog has one available dish, yet the pipeline
returns the empty list, because the single candidate carries the user-avoided
allergen, scores 5 - 60 = -55 ≤ -30, matches no preferred cuisine, and is
dropped by the inclusion threshold; the fill and last-resort paths never
rescue a dish that scoring excluded. This refutes the claim that an empty
result occurs only when the catalog has no available dish. -/
theorem claim_C1_counterexample :
    available_dishes envAllergen ≠ [] ∧
    scoreDish envAllergen userNutAvoider false allergenDish = -55 ∧
    get_rule_based_recommendations idTrig envAllergen userNutAvoider
      none none 10 = [] := by
  refine ⟨?_, ?_, ?_⟩
  · with_unfolding_all decide
  · with_unfolding_all decide
  · with_unfolding_all decide

/-- C1 as amended: for a positive limit, the recommendation list is empty
exactly when every dish in the cascaded candidate pool is excluded by the
scoring threshold (no cuisine match and computed score at most -30); moreover
the cascade itself never produces an empty pool while the catalog has an
available dish, so strict location, cuisine, dietary or spice filters alone
never empty the result. -/
theorem claim_C1_amended (T : TrigOps) (env : Env) (user : User)
    (lat lon : Option ℚ) (limit : ℕ) (hlim : 1 ≤ limit) :
    (get_rule_based_recommendations T env user lat lon limit = [] ↔
      ∀ d ∈ (cascadeState T env user lat lon limit).dishes,
        includeDish env user (cascadeState T env user lat lon limit).cuisineApplied
          d = false) ∧
    (available_dishes env ≠ [] →
      (cascadeState T env user lat lon limit).dishes ≠ []) := by
  constructor
  · exact rec_empty_iff hlim
  · intro hav hnil
    rcases cascadeState_dishes_eq_nil_iff.mp hnil with h | h
    · omega
    · exact hav h

/-- C1 amended witness: the amended theorem applied at the nut scenario with
limit 10; every pooled candidate is indeed excluded and the result is empty. -/
theorem claim_C1_amended_witness :
    get_rule_based_recommendations idTrig envAllergen userNutAvoider
      none none 10 = [] :=
  (claim_C1_amended idTrig envAllergen userNutAvoider none none 10
    (by decide)).1.mpr (by with_unfolding_all decide)

/-- C8: for every interpretation of the trigonometry, catalog snapshot, user
profile, optional coordinates, and limit, the recommendation list holds at
most limit dishes, and every returned dish is available. -/
theorem claim_C8_limit_and_availability (T : TrigOps) (env : Env) (user : User)
    (lat lon : Option ℚ) (limit : ℕ) :
    (get_rule_based_recommendations T env user lat lon limit).length ≤ limit ∧
    ∀ d ∈ get_rule_based_recommendations T env user lat lon limit,
      d.is_available = true := by
  rw [rec_eq]
  split
  · constructor
    · unfold last_resort
      rw [List.length_take]
      omega
    · intro d hd
      unfold last_resort at hd
      have h1 := (List.perm_insertionSort lastResortRank
        (available_dishes env)).mem_iff.mp (List.mem_of_mem_take hd)
      exact (mem_available_dishes.mp h1).2
  · constructor
    · exact topDishes_length_le env user
        (cascadeState T env user lat lon limit).cuisineApplied limit
        (cascadeState T env user lat lon limit).dishes
    · intro d hd
      rcases mem_topDishes hd with ⟨e, he, hed⟩
      have h1 := (mem_scoredSorted.mp he).1
      have h2 := cascadeState_subset e.1 h1
      rw [hed] at h2
      exact (mem_available_dishes.mp h2).2

/-- C3: over any candidate pool, a dish whose vendor specialty matches a
preferred cuisine is always placed in the scored candidate set with final
score max(computed score, 20); a non-matching dish is placed there exactly
when its computed score exceeds -30. -/
theorem claim_C3_inclusion_rule (env : Env) (user : User) (cApp : Bool)
    (pool : List Dish) (d : Dish) (hd : d ∈ pool) :
    (dish_cuisine_matches env user.preferred_cuisines d = true →
      (d, max (scoreDish env user cApp d) 20) ∈
        scored_dishes env user cApp pool) ∧
    (dish_cuisine_matches env user.preferred_cuisines d = false →
      (d ∈ (scored_dishes env user cApp pool).map Prod.fst ↔
        (-30 : ℚ) < scoreDish env user cApp d)) := by
  constructor
  · intro hm
    refine mem_scored_dishes.mpr ⟨hd, ?_, ?_⟩
    · unfold includeDish
      rw [hm, Bool.true_or]
    · unfold finalScore
      rw [hm]
      simp only [if_true]
      by_cases hlt : scoreDish env user cApp d < 20
      · rw [if_pos hlt]
        exact max_eq_right (le_of_lt hlt)
      · rw [if_neg hlt]
        exact max_eq_left (not_lt.mp hlt)
  · intro hm
    constructor
    · intro hmem
      rcases List.mem_map.mp hmem with ⟨e, he, hed⟩
      have h1 := mem_scored_dishes.mp he
      have h2 := h1.2.1
      unfold includeDish at h2
      rw [hed] at h2
      rw [hm, Bool.false_or, decide_eq_true_eq] at h2
      exact h2
    · intro hscore
      refine List.mem_map.mpr ⟨(d, finalScore env user cApp d), ?_, rfl⟩
      refine mem_scored_dishes.mpr ⟨hd, ?_, rfl⟩
      unfold includeDish
      rw [hm, Bool.false_or, decide_eq_true_eq]
      exact hscore

/-- C3 witness: the inclusion rule applied to the nut scenario pool; the
non-matching nut dish scores -55 and is indeed left out of the candidate
set. -/
theorem claim_C3_witness :
    ¬ (allergenDish ∈ (scored_dishes envAllergen userNutAvoider false
      [allergenDish]).map Prod.fst) := by
  have h := (claim_C3_inclusion_rule envAllergen userNutAvoider false
    [allergenDish] allergenDish (by decide)).2 (by with_unfolding_all decide)
  intro hmem
  have h2 := h.mp hmem
  have h3 : ¬ ((-30 : ℚ) < scoreDish envAllergen userNutAvoider false allergenDish) := by
    with_unfolding_all decide
  exact h3 h2

/-- The allergen penalty is at most -60 whenever the avoided set overlaps the
declared set. -/
theorem allergenComponent_le_of_overlap {user : User} {d : Dish}
    (hov : allergenOverlap user.allergens d.allergens = true) :
    allergenComponent user d ≤ -60 := by
  unfold allergenOverlap at hov
  rcases List.any_eq_true.mp hov with ⟨a, ha, hpa⟩
  have hune : ¬(user.allergens == []) = true := by
    intro hb
    rw [beq_iff_eq] at hb
    rw [hb] at ha
    cases ha
  have hdne : ¬(d.allergens == []) = true := by
    intro hb
    rw [beq_iff_eq] at hb
    rcases List.any_eq_true.mp hpa with ⟨da, hda, _⟩
    rw [hb] at hda
    cases hda
  unfold allergenComponent
  rw [if_neg (by simp [Bool.or_eq_true]; exact ⟨by simpa using hune, by simpa using hdne⟩)]
  have hne : user.allergens.filter
      (fun a => d.allergens.any (fun da => allergenMatch a da)) ≠ [] := by
    intro hfil
    rw [List.filter_eq_nil_iff] at hfil
    exact hfil a ha hpa
  have hlen : 1 ≤ (user.allergens.filter
      (fun a => d.allergens.any (fun da => allergenMatch a da))).length :=
    List.length_pos.mpr hne
  have hcast : (1 : ℚ) ≤ ((user.allergens.filter
      (fun a => d.allergens.any (fun da => allergenMatch a da))).length : ℚ) := by
    exact_mod_cast hlen
  nlinarith

/-- The allergen penalty vanishes when there is no overlap. -/
theorem allergenComponent_eq_zero_of_no_overlap {user : User} {al : List Str}
    {d : Dish} (hd : d.allergens = al)
    (hov : allergenOverlap user.allergens al = false) :
    allergenComponent user d = 0 := by
  unfold allergenComponent
  subst hd
  split
  · rfl
  · have hfil : user.allergens.filter
        (fun a => d.allergens.any (fun da => allergenMatch a da)) = [] := by
      rw [List.filter_eq_nil_iff]
      intro a ha hpa
      unfold allergenOverlap at hov
      rw [List.any_eq_false] at hov
      exact (hov a ha) hpa
    rw [hfil]
    norm_num

/-- C9: two dishes identical except for their declared allergen sets, one
overlapping the avoided set and the other not, differ by at least 60 in
computed score; and the overlapping dish is dropped from the candidate set
whenever its score reaches -30 or below while it matches no preferred
cuisine. -/
theorem claim_C9_allergen_penalty (env : Env) (user : User) (cApp : Bool)
    (d1 : Dish) (al2 : List Str)
    (hov1 : allergenOverlap user.allergens d1.allergens = true)
    (hov2 : allergenOverlap user.allergens al2 = false) :
    scoreDish env user cApp d1 + 60 ≤
      scoreDish env user cApp { d1 with allergens := al2 } ∧
    (scoreDish env user cApp d1 ≤ -30 →
      dish_cuisine_matches env user.preferred_cuisines d1 = false →
      includeDish env user cApp d1 = false) := by
  constructor
  · have hbase : scoreBase env user cApp { d1 with allergens := al2 } =
        scoreBase env user cApp d1 := rfl
    have h1 : allergenComponent user d1 ≤ -60 :=
      allergenComponent_le_of_overlap hov1
    have h2 : allergenComponent user { d1 with allergens := al2 } = 0 :=
      allergenComponent_eq_zero_of_no_overlap rfl hov2
    unfold scoreDish
    rw [hbase, h2]
    linarith
  · intro hle hm
    unfold includeDish
    rw [hm, Bool.false_or, decide_eq_false]
    exact not_lt.mpr (by linarith)

/-- C9 witness: the penalty theorem applied with the nut dish against its
allergen-free copy; the hypotheses hold by computation. -/
theorem claim_C9_witness :
    scoreDish envAllergen userNutAvoider false allergenDish + 60 ≤
      scoreDish envAllergen userNutAvoider false
        { allergenDish with allergens := [] } :=
  (claim_C9_allergen_penalty envAllergen userNutAvoider false allergenDish []
    (by with_unfolding_all decide) (by with_unfolding_all decide)).1

/-- An approved, active producer specialising in South Indian food. -/
def southProducer : Producer :=
  { id := 1, status := str "approved", is_active := true, latitude := none,
    longitude := none, cuisine_specialty := some (str "South Indian") }

/-- A dish of the South Indian producer with no other distinguishing data. -/
def southDish : Dish :=
  { id := 1, producer_id := 1, price := 5, currency := none, category := none,
    dietary_type := none, spice_level := none, allergens := [],
    ingredients := none, description := none, is_available := true,
    average_rating := 0, view_count := 0, order_count := 0 }

/-- A catalog with the single South Indian producer and dish. -/
def envSouth : Env :=
  { dishes := [southDish], producers := [southProducer], orders := [],
    reviews := [] }

/-- A user preferring both South Indian and Kerala cuisine. -/
def userTwoPrefs : User :=
  { id := 1, dietary_preferences := none, spice_level := none,
    budget_preference := none,
    preferred_cuisines := [str "South Indian", str "Kerala"],
    dietary_restrictions := [], allergens := [], meal_preferences := [] }

/-- C2 counterexample: both preferred cuisines individually match the vendor
specialty, so the claim requires the cuisine contribution 40 + 5 = 45, but the
source breaks out of the match loop at the first matching preference, so the
contribution is exactly 40. -/
theorem claim_C2_counterexample :
    cuisine_matches (str "South Indian") (str "South Indian") = true ∧
    cuisine_matches (str "Kerala") (str "South Indian") = true ∧
    cuisineComponent envSouth userTwoPrefs.preferred_cuisines southDish = 40 ∧
    cuisineComponent envSouth userTwoPrefs.preferred_cuisines southDish ≠ 45 := by
  refine ⟨?_, ?_, ?_, ?_⟩
  · with_unfolding_all decide
  · with_unfolding_all decide
  · with_unfolding_all decide
  · with_unfolding_all decide

/-- C2 as amended: when the user has preferences and the vendor row exists
with a non-empty specialty, the cuisine contribution is exactly +40 if any
preference matches (never more: the per-match +5 bonus is unreachable dead
code) and exactly -20 if none matches; a missing vendor row or empty
specialty contributes nothing even though the dish then matches no
preference. -/
theorem claim_C2_amended (env : Env) (prefs : List Str) (d : Dish)
    (p : Producer) (spec : Str)
    (hp : producerById env d.producer_id = some p)
    (hspec : p.cuisine_specialty = some spec)
    (hne : spec ≠ []) (hprefs : prefs ≠ []) :
    cuisineComponent env prefs d =
      (if matchesAnyPref prefs spec then (40 : ℚ) else -20) := by
  unfold cuisineComponent
  rw [if_neg (by simpa using hprefs)]
  simp only [hp, hspec]
  rw [if_neg (by simpa using hne)]

/-- C2 amended witness: the amended contribution formula applied at the
two-preference scenario. -/
theorem claim_C2_amended_witness :
    cuisineComponent envSouth userTwoPrefs.preferred_cuisines southDish =
      (if matchesAnyPref userTwoPrefs.preferred_cuisines (str "South Indian")
       then (40 : ℚ) else -20) :=
  claim_C2_amended envSouth userTwoPrefs.preferred_cuisines southDish
    southProducer (str "South Indian") (by with_unfolding_all decide)
    (by decide) (by decide) (by decide)

/-- C4: whenever the normalized first cuisine contains north and the
normalized second contains south, cuisine_matches is false in both argument
orders, and in particular on the two pairs the specification names. -/
theorem claim_C4_north_south_conflict :
    (∀ u v : Str, pyIn (str "north") (normalize_cuisine_name u) = true →
      pyIn (str "south") (normalize_cuisine_name v) = true →
      cuisine_matches u v = false ∧ cuisine_matches v u = false) ∧
    cuisine_matches (str "South Indian") (str "North Indian") = false ∧
    cuisine_matches (str "North Indian Punjabi") (str "South Indian Kerala")
      = false := by
  refine ⟨?_, by with_unfolding_all decide, by with_unfolding_all decide⟩
  intro u v hn hs
  constructor
  · have hc : northSouthConflict (normalize_cuisine_name u)
        (normalize_cuisine_name v) = true := by
      unfold northSouthConflict
      rw [hn, hs]
      simp
    simp only [cuisine_matches, hc]
    simp
  · have hc : northSouthConflict (normalize_cuisine_name v)
        (normalize_cuisine_name u) = true := by
      unfold northSouthConflict
      rw [hn, hs]
      simp
    simp only [cuisine_matches, hc]
    simp

/-- C4 witness: the conflict theorem applied at two fresh strings containing
north and south respectively. -/
theorem claim_C4_witness :
    cuisine_matches (str "north zone") (str "south zone") = false ∧
    cuisine_matches (str "south zone") (str "north zone") = false := by
  have hn : pyIn (str "north") (normalize_cuisine_name (str "north zone"))
      = true := by with_unfolding_all decide
  have hs : pyIn (str "south") (normalize_cuisine_name (str "south zone"))
      = true := by with_unfolding_all decide
  exact claim_C4_north_south_conflict.1 (str "north zone") (str "south zone") hn hs

/-- C6 counterexample: the stored text South Indian is not valid JSON, yet the
getter does not treat it as an empty preference list; it returns the singleton
of the string, so cuisine filtering and scoring remain active. -/
theorem claim_C6_counterexample :
    get_preferred_cuisines_list (some (str "South Indian")) .failure =
      [str "South Indian"] ∧
    get_preferred_cuisines_list (some (str "South Indian")) .failure ≠ [] := by
  constructor
  · with_unfolding_all decide
  · with_unfolding_all decide

/-- C6 as amended: a non-empty stored string that fails JSON parsing is
recovered, not blanked: with a comma it becomes the comma-split list with
blank pieces dropped, without a comma it becomes the singleton of the
stripped string (empty only when the string is all whitespace); the getter is
total, so the recommendation call raises no error. -/
theorem claim_C6_amended (s : Str) (hs : s ≠ []) :
    ((s.contains ',') = true →
      get_preferred_cuisines_list (some s) .failure =
        ((splitComma s).filter (fun c => !(stripStr c == []))).map stripStr) ∧
    ((s.contains ',') = false → stripStr s ≠ [] →
      get_preferred_cuisines_list (some s) .failure = [stripStr s]) ∧
    ((s.contains ',') = false → stripStr s = [] →
      get_preferred_cuisines_list (some s) .failure = []) := by
  have hbody : get_preferred_cuisines_list (some s) .failure =
      (if s == [] then []
       else if s.contains ',' then
         ((splitComma s).filter (fun c => !(stripStr c == []))).map stripStr
       else if stripStr s == [] then [] else [stripStr s]) := rfl
  rw [hbody, if_neg (by simpa using hs)]
  refine ⟨?_, ?_, ?_⟩
  · intro hcomma
    rw [if_pos hcomma]
  · intro hcomma hstrip
    rw [if_neg (by rw [hcomma]; exact Bool.false_ne_true),
      if_neg (by simpa using hstrip)]
  · intro hcomma hstrip
    rw [if_neg (by rw [hcomma]; exact Bool.false_ne_true),
      if_pos (by simpa using hstrip)]

/-- C6 amended witness: the amended parse behaviour applied to the
comma-free unparseable string South Indian. -/
theorem claim_C6_witness :
    get_preferred_cuisines_list (some (str "South Indian")) .failure =
      [stripStr (str "South Indian")] :=
  (claim_C6_amended (str "South Indian") (by decide)).2.1
    (by with_unfolding_all decide) (by with_unfolding_all decide)

/-- Zero is falsy for the coordinate truthiness test. -/
theorem truthyNum_some_zero : truthyNum (some 0) = false := by
  with_unfolding_all decide

/-- C7 counterexample: all four coordinates are supplied (none is missing or
null), yet the function returns the unknown value because the first latitude
is the falsy float 0.0: the guard not all([...]) conflates zero with absent. -/
theorem claim_C7_counterexample :
    calculate_distance_haversine idTrig (some 0) (some 1) (some 1) (some 1)
      = none ∧
    (some (0 : ℚ)) ≠ (none : Option ℚ) := by
  constructor
  · with_unfolding_all decide
  · simp

/-- C7 as amended: the haversine helper returns the unknown value exactly when
some argument is missing or equal to zero; on four present non-zero
coordinates it deterministically returns the great-circle formula of the
specification, 2 R asin(sqrt a), for every interpretation of the trigonometric
primitives. -/
theorem claim_C7_amended (T : TrigOps) (lat1 lon1 lat2 lon2 : Option ℚ) :
    (calculate_distance_haversine T lat1 lon1 lat2 lon2 = none ↔
      ¬((truthyNum lat1 && truthyNum lon1 && truthyNum lat2 && truthyNum lon2)
        = true)) ∧
    (∀ a1 b1 a2 b2 : ℚ, lat1 = some a1 → lon1 = some b1 → lat2 = some a2 →
      lon2 = some b2 → a1 ≠ 0 → b1 ≠ 0 → a2 ≠ 0 → b2 ≠ 0 →
      calculate_distance_haversine T lat1 lon1 lat2 lon2 =
        some (specHaversineFormula T a1 b1 a2 b2)) := by
  constructor
  · by_cases hX : (truthyNum lat1 && truthyNum lon1 && truthyNum lat2 &&
        truthyNum lon2) = true
    · unfold calculate_distance_haversine
      rw [if_neg (by rw [hX]; simp)]
      simp [hX]
    · have hX2 : (truthyNum lat1 && truthyNum lon1 && truthyNum lat2 &&
          truthyNum lon2) = false := Bool.eq_false_iff.mpr hX
      unfold calculate_distance_haversine
      rw [if_pos (by rw [hX2]; rfl)]
      simp [hX]
  · intro a1 b1 a2 b2 h1 h2 h3 h4 hn1 hn2 hn3 hn4
    subst h1; subst h2; subst h3; subst h4
    have ht1 : truthyNum (some a1) = true := by
      unfold truthyNum
      simp [hn1]
    have ht2 : truthyNum (some b1) = true := by
      unfold truthyNum
      simp [hn2]
    have ht3 : truthyNum (some a2) = true := by
      unfold truthyNum
      simp [hn3]
    have ht4 : truthyNum (some b2) = true := by
      unfold truthyNum
      simp [hn4]
    unfold calculate_distance_haversine
    rw [if_neg (by simp [ht1, ht2, ht3, ht4])]
    unfold specHaversineFormula
    simp only [Option.getD_some]
    congr 1
    ring

/-- C7 amended witness: the amended contract applied at four concrete
non-zero coordinates under the sample trigonometry. -/
theorem claim_C7_witness :
    calculate_distance_haversine idTrig (some 1) (some 1) (some 2) (some 2) =
      some (specHaversineFormula idTrig 1 1 2 2) :=
  (claim_C7_amended idTrig (some 1) (some 1) (some 2) (some 2)).2 1 1 2 2
    rfl rfl rfl rfl (by decide) (by decide) (by decide) (by decide)

/-- C10: a zero latitude or longitude is treated exactly like an absent
coordinate by the recommendation pipeline, and the haversine helper returns
the unknown value whenever any single argument equals zero. -/
theorem claim_C10_zero_is_absent :
    (∀ (T : TrigOps) (env : Env) (user : User) (lon : Option ℚ) (limit : ℕ),
      get_rule_based_recommendations T env user (some 0) lon limit =
        get_rule_based_recommendations T env user none lon limit) ∧
    (∀ (T : TrigOps) (env : Env) (user : User) (lat : Option ℚ) (limit : ℕ),
      get_rule_based_recommendations T env user lat (some 0) limit =
        get_rule_based_recommendations T env user lat none limit) ∧
    (∀ (T : TrigOps) (b c d : Option ℚ),
      calculate_distance_haversine T (some 0) b c d = none ∧
      calculate_distance_haversine T b (some 0) c d = none ∧
      calculate_distance_haversine T b c (some 0) d = none ∧
      calculate_distance_haversine T b c d (some 0) = none) := by
  have hnone : truthyNum none = false := rfl
  refine ⟨?_, ?_, ?_⟩
  · intro T env user lon limit
    have hAfter : afterLocation T env (some 0) lon = afterLocation T env none lon := by
      unfold afterLocation
      rw [truthyNum_some_zero, hnone]
      simp only [Option.getD_some, Option.getD_none]
    have hInit : initialState T env user (some 0) lon limit =
        initialState T env user none lon limit := by
      unfold initialState
      rw [hAfter]
    have hCascade : cascadeState T env user (some 0) lon limit =
        cascadeState T env user none lon limit := by
      unfold cascadeState
      rw [hInit]
    unfold get_rule_based_recommendations
    rw [hCascade]
  · intro T env user lat limit
    have hAfter : afterLocation T env lat (some 0) = afterLocation T env lat none := by
      unfold afterLocation
      rw [truthyNum_some_zero, hnone]
      simp only [Option.getD_some, Option.getD_none]
    have hInit : initialState T env user lat (some 0) limit =
        initialState T env user lat none limit := by
      unfold initialState
      rw [hAfter]
    have hCascade : cascadeState T env user lat (some 0) limit =
        cascadeState T env user lat none limit := by
      unfold cascadeState
      rw [hInit]
    unfold get_rule_based_recommendations
    rw [hCascade]
  · intro T b c d
    refine ⟨?_, ?_, ?_, ?_⟩ <;>
      · unfold calculate_distance_haversine
        rw [if_pos]
        simp [truthyNum_some_zero]

/-! Supporting lemmas for the partition-priority claim. -/

theorem matchedTake_all_matched {env : Env} {user : User} {cApp : Bool}
    {limit : ℕ} {pool : List Dish} :
    ∀ d ∈ matchedTake env user cApp limit pool,
      partitionMatch env user.preferred_cuisines d = true := by
  intro d hd
  rcases mem_matchedTake hd with ⟨e, he, hed⟩
  have h2 := (List.mem_filter.mp he).2
  rw [← hed]
  exact h2

theorem otherSeg_all_unmatched {env : Env} {user : User} {cApp : Bool}
    {pool : List Dish} {n : ℕ} :
    ∀ d ∈ ((sortScored (otherPart env user cApp pool)).take n).map Prod.fst,
      partitionMatch env user.preferred_cuisines d = false := by
  intro d hd
  rcases List.mem_map.mp hd with ⟨e, he, hed⟩
  have h2 := (List.mem_filter.mp
    (mem_sortScored.mp (List.mem_of_mem_take he))).2
  rw [Bool.not_eq_true'] at h2
  rw [← hed]
  exact h2

theorem matchedTake_pairwise (env : Env) (user : User) (cApp : Bool)
    (limit : ℕ) (pool : List Dish) :
    (matchedTake env user cApp limit pool).Pairwise
      (fun a b => finalScore env user cApp b ≤ finalScore env user cApp a) := by
  unfold matchedTake
  apply pairwise_final
  · intro e he
    exact List.mem_of_mem_filter (mem_sortScored.mp he)
  · exact List.sorted_insertionSort scoreGe (matchedPart env user cApp pool)

theorem otherSeg_pairwise (env : Env) (user : User) (cApp : Bool)
    (pool : List Dish) (n : ℕ) :
    (((sortScored (otherPart env user cApp pool)).take n).map Prod.fst).Pairwise
      (fun a b => finalScore env user cApp b ≤ finalScore env user cApp a) := by
  apply pairwise_final
  · intro e he
    exact List.mem_of_mem_filter (mem_sortScored.mp he)
  · exact List.sorted_insertionSort scoreGe (otherPart env user cApp pool)

/-- C5: when the user has cuisine preferences and some returned dish is
cuisine-matched, the returned list splits into a matched block followed by a
non-matched block; the matched block takes min(limit, number of matched
candidates) slots, and each block is ordered by stored score descending. -/
theorem claim_C5_partition_priority (T : TrigOps) (env : Env) (user : User)
    (lat lon : Option ℚ) (limit : ℕ)
    (hpref : user.preferred_cuisines ≠ [])
    (hmatch : ∃ d ∈ get_rule_based_recommendations T env user lat lon limit,
      partitionMatch env user.preferred_cuisines d = true) :
    ∃ A B,
      get_rule_based_recommendations T env user lat lon limit = A ++ B ∧
      (∀ d ∈ A, partitionMatch env user.preferred_cuisines d = true) ∧
      (∀ d ∈ B, partitionMatch env user.preferred_cuisines d = false) ∧
      A.length = min limit (matchedPart env user
        (cascadeState T env user lat lon limit).cuisineApplied
        (cascadeState T env user lat lon limit).dishes).length ∧
      A.Pairwise (fun a b =>
        finalScore env user (cascadeState T env user lat lon limit).cuisineApplied b ≤
        finalScore env user (cascadeState T env user lat lon limit).cuisineApplied a) ∧
      B.Pairwise (fun a b =>
        finalScore env user (cascadeState T env user lat lon limit).cuisineApplied b ≤
        finalScore env user (cascadeState T env user lat lon limit).cuisineApplied a) := by
  by_cases hnil : (cascadeState T env user lat lon limit).dishes = []
  · exfalso
    rcases hmatch with ⟨d, hd, _⟩
    rw [rec_eq, if_pos (by simpa using hnil),
      last_resort_of_no_dishes (cascadeState_dishes_eq_nil_iff.mp hnil)] at hd
    cases hd
  · have hrec : get_rule_based_recommendations T env user lat lon limit =
        topDishes env user (cascadeState T env user lat lon limit).cuisineApplied
          limit (cascadeState T env user lat lon limit).dishes := by
      rw [rec_eq, if_neg (by simpa using hnil)]
    have hprefb : (!(user.preferred_cuisines == [])) = true := by
      simpa using hpref
    rw [hrec]
    unfold topDishes
    rw [if_pos hprefb]
    split
    · refine ⟨_, _, rfl, matchedTake_all_matched, otherSeg_all_unmatched,
        length_matchedTake env user _ limit _, matchedTake_pairwise env user _ limit _,
        otherSeg_pairwise env user _ _ _⟩
    · refine ⟨matchedTake env user
        (cascadeState T env user lat lon limit).cuisineApplied limit
        (cascadeState T env user lat lon limit).dishes, [],
        (List.append_nil _).symm, matchedTake_all_matched, ?_,
        length_matchedTake env user _ limit _,
        matchedTake_pairwise env user _ limit _, List.Pairwise.nil⟩
      intro d hd
      cases hd

/-- C5 witness: the partition theorem applied at the South Indian scenario
where the single returned dish matches the preference. -/
theorem claim_C5_witness :
    ∃ A B,
      get_rule_based_recommendations idTrig envSouth userTwoPrefs none none 10
        = A ++ B ∧
      (∀ d ∈ A, partitionMatch envSouth userTwoPrefs.preferred_cuisines d = true) ∧
      (∀ d ∈ B, partitionMatch envSouth userTwoPrefs.preferred_cuisines d = false) ∧
      A.length = min 10 (matchedPart envSouth userTwoPrefs
        (cascadeState idTrig envSouth userTwoPrefs none none 10).cuisineApplied
        (cascadeState idTrig envSouth userTwoPrefs none none 10).dishes).length ∧
      A.Pairwise (fun a b =>
        finalScore envSouth userTwoPrefs
          (cascadeState idTrig envSouth userTwoPrefs none none 10).cuisineApplied b ≤
        finalScore envSouth userTwoPrefs
          (cascadeState idTrig envSouth userTwoPrefs none none 10).cuisineApplied a) ∧
      B.Pairwise (fun a b =>
        finalScore envSouth userTwoPrefs
          (cascadeState idTrig envSouth userTwoPrefs none none 10).cuisineApplied b ≤
        finalScore envSouth userTwoPrefs
          (cascadeState idTrig envSouth userTwoPrefs none none 10).cuisineApplied a) :=
  claim_C5_partition_priority idTrig envSouth userTwoPrefs none none 10
    (by decide)
    ⟨southDish, by with_unfolding_all decide, by with_unfolding_all decide⟩

end AmmasBackend
